import Mathlib

/-!
Verification of the SUE-Sim performance-data analysis scripts.

The development shallowly embeds the statistics kernel of
performance-data/scripts/load_balance_analyzer.py (functions
calculate_load_balance_metrics and create_fairness_analysis), the
packet-loss computation of performance-data/scripts/loss_analyzer.py
(function calculate_packet_loss), and the chart-generation control flow
of the main function of load_balance_analyzer.py.

Python floats are modelled by real numbers; the float value inf that
max_min_ratio takes when min(counts) = 0 is modelled by the value none
of an Option real.  Integer quantities stay natural numbers.
-/

/-- One row of the load_balance CSV, with the column names of the source:
LocalXpuId, DestXpuId, VcId, SueId. -/
structure RequestRecord where
  LocalXpuId : ℕ
  DestXpuId : ℕ
  VcId : ℕ
  SueId : ℕ
deriving DecidableEq

/-- The rows of the table whose LocalXpuId equals local_xpu:
the source expression selecting the rows of df whose LocalXpuId column
equals local_xpu. -/
def xpu_data (df : List RequestRecord) (local_xpu : ℕ) : List RequestRecord :=
  df.filter (fun r => r.LocalXpuId == local_xpu)

/-- The distinct values of a list of ids in increasing order: the index of
a pandas value_counts().sort_index() and the result of
sorted(column.unique()). -/
def sortedUnique (l : List ℕ) : List ℕ :=
  List.insertionSort (· ≤ ·) l.dedup

/-- The value_counts of the SueId column, sorted by index: the number of rows per
distinct SueId, listed in increasing order of SueId. -/
def sue_counts (l : List RequestRecord) : List ℕ :=
  (sortedUnique (l.map RequestRecord.SueId)).map
    (fun s => (l.filter (fun r => r.SueId == s)).length)

/-- actual_counts = sue_counts.values for the group of the given local XPU. -/
def actual_counts (df : List RequestRecord) (local_xpu : ℕ) : List ℕ :=
  sue_counts (xpu_data df local_xpu)

/-- np.min over a list of counts (0 on the empty list, which numpy rejects;
the analyzer never reaches that case). -/
def minC : List ℕ → ℕ
  | [] => 0
  | [c] => c
  | c :: cs => min c (minC cs)

/-- np.max over a list of counts (0 on the empty list). -/
def maxC : List ℕ → ℕ
  | [] => 0
  | c :: cs => max c (maxC cs)

/-- np.mean: arithmetic mean of the counts (division by zero yields 0 on
the empty list, matching real division by zero). -/
noncomputable def mean (l : List ℕ) : ℝ :=
  (l.sum : ℝ) / l.length

/-- np.std: the population standard deviation of the counts. -/
noncomputable def std (l : List ℕ) : ℝ :=
  Real.sqrt (((l.map fun c : ℕ => ((c : ℝ) - mean l) ^ 2).sum) / l.length)

/-- ideal_per_sue = total_requests / num_sues if num_sues > 0 else 0. -/
noncomputable def ideal_per_sue (df : List RequestRecord) (local_xpu : ℕ) : ℝ :=
  if 0 < (actual_counts df local_xpu).length then
    ((xpu_data df local_xpu).length : ℝ) / (actual_counts df local_xpu).length
  else 0

/-- The per-XPU metrics dict built by calculate_load_balance_metrics.
max_min_ratio is a Python float that can be inf; none models inf. -/
structure Metrics where
  total_requests : ℕ
  num_sues : ℕ
  ideal_per_sue : ℝ
  cv : ℝ
  max_min_ratio : Option ℝ
  rsd : ℝ
  sue_counts : List ℕ

/-- The loop body of calculate_load_balance_metrics for one local XPU:
cv = np.std/np.mean guarded by mean > 0, max_min_ratio = np.max/np.min
guarded by min > 0 (inf, i.e. none, otherwise), rsd = (np.std/ideal)*100
guarded by ideal > 0. -/
noncomputable def metricsFor (df : List RequestRecord) (local_xpu : ℕ) : Metrics :=
  { total_requests := (xpu_data df local_xpu).length
    num_sues := (actual_counts df local_xpu).length
    ideal_per_sue := ideal_per_sue df local_xpu
    cv :=
      if 0 < mean (actual_counts df local_xpu) then
        std (actual_counts df local_xpu) / mean (actual_counts df local_xpu)
      else 0
    max_min_ratio :=
      if 0 < minC (actual_counts df local_xpu) then
        some ((maxC (actual_counts df local_xpu) : ℝ) /
          (minC (actual_counts df local_xpu) : ℝ))
      else none
    rsd :=
      if 0 < ideal_per_sue df local_xpu then
        std (actual_counts df local_xpu) / ideal_per_sue df local_xpu * 100
      else 0
    sue_counts := actual_counts df local_xpu }

/-- The sorted unique values of the LocalXpuId column: the distinct local XPU ids in
increasing order. -/
def local_xpus (df : List RequestRecord) : List ℕ :=
  sortedUnique (df.map RequestRecord.LocalXpuId)

/-- calculate_load_balance_metrics: one metrics record per distinct
LocalXpuId, keyed by the id. -/
noncomputable def calculate_load_balance_metrics (df : List RequestRecord) :
    List (ℕ × Metrics) :=
  (local_xpus df).map (fun x => (x, metricsFor df x))

/-- cv_score = max(0, 100 - cv * 500) from create_fairness_analysis. -/
noncomputable def cv_score (m : Metrics) : ℝ :=
  max 0 (100 - m.cv * 500)

/-- rsd_score = max(0, 100 - rsd * 2.5) from create_fairness_analysis. -/
noncomputable def rsd_score (m : Metrics) : ℝ :=
  max 0 (100 - m.rsd * 2.5)

/-- ratio_score = max(0, 100 - (max_min_ratio - 1) * 50).  When
max_min_ratio is the float inf (modelled by none), the Python expression
evaluates to max(0, -inf) = 0. -/
noncomputable def ratio_score (m : Metrics) : ℝ :=
  match m.max_min_ratio with
  | some r => max 0 (100 - (r - 1) * 50)
  | none => 0

/-- overall_score = (cv_score + rsd_score + ratio_score) / 3. -/
noncomputable def overall_score (m : Metrics) : ℝ :=
  (cv_score m + rsd_score m + ratio_score m) / 3

/-- The result tuple of calculate_packet_loss in loss_analyzer.py on
success: (total_sent, total_received, total_dropped, network_loss_rate,
receiver_loss_rate, total_loss_rate).  Rates are modelled by rationals. -/
structure LossResult where
  total_sent : ℕ
  total_received : ℕ
  total_dropped : ℕ
  network_loss_rate : ℚ
  receiver_loss_rate : ℚ
  total_loss_rate : ℚ
deriving DecidableEq

/-- The switch-packet-loss fallback of calculate_packet_loss: if sent
exceeds received and the parsed dropped counter is 0, the dropped count
becomes the sent/received difference; otherwise it is kept unchanged. -/
def total_dropped_adjusted (total_sent total_received total_dropped : ℕ) : ℕ :=
  if total_received < total_sent ∧ total_dropped = 0 then
    total_sent - total_received
  else total_dropped

/-- calculate_packet_loss, abstracted over the three counters parsed from
the log.  The fallback is applied before any rate is computed; the string
is the error return for a log with no sent packets. -/
def calculate_packet_loss (total_sent total_received total_dropped : ℕ) :
    Except String LossResult :=
  if total_sent = 0 then
    Except.error "Error: No sent packet data found"
  else
    Except.ok
      { total_sent := total_sent
        total_received := total_received
        total_dropped :=
          total_dropped_adjusted total_sent total_received total_dropped
        network_loss_rate :=
          ((total_sent : ℚ) - total_received) / total_sent * 100
        receiver_loss_rate :=
          if total_received = 0 then 0
          else
            (total_dropped_adjusted total_sent total_received total_dropped : ℚ)
              / total_received * 100
        total_loss_rate :=
          ((total_sent : ℚ) - ((total_received : ℚ)
            - (total_dropped_adjusted total_sent total_received
                total_dropped : ℚ)))
            / total_sent * 100 }

/-- The three charts produced in the main function of
load_balance_analyzer.py, in the
order they are invoked inside its single try block. -/
inductive Chart where
  | boxPlot
  | heatmap
  | fairness
deriving DecidableEq

/-- The invocation order of the charts inside the try block of main. -/
def chartSequence : List Chart := [Chart.boxPlot, Chart.heatmap, Chart.fairness]

/-- Control flow of the chart phase of main: the three chart calls sit in one
try/except, so execution stops at the first chart whose rendering raises,
and the charts actually written are the prefix before the first failure.
The argument tells which chart calls raise. -/
def chartsGenerated (fails : Chart → Bool) : List Chart :=
  chartSequence.takeWhile (fun c => !fails c)

/-- Control flow of main after the chart phase: generate_analysis_report
is outside the try/except, so the report is written whether or not a
chart failed. -/
def reportGenerated (_fails : Chart → Bool) : Bool :=
  true

theorem minC_cons_cons (a b : ℕ) (t : List ℕ) :
    minC (a :: b :: t) = min a (minC (b :: t)) := rfl

theorem minC_le_of_mem {l : List ℕ} {c : ℕ} (h : c ∈ l) : minC l ≤ c := by
  induction l with
  | nil => cases h
  | cons a t ih =>
    cases t with
    | nil =>
      rcases List.mem_cons.mp h with rfl | h2
      · exact le_rfl
      · cases h2
    | cons b t2 =>
      rw [minC_cons_cons]
      rcases List.mem_cons.mp h with rfl | h2
      · exact min_le_left _ _
      · exact le_trans (min_le_right _ _) (ih h2)

theorem minC_mem {l : List ℕ} (h : l ≠ []) : minC l ∈ l := by
  induction l with
  | nil => exact absurd rfl h
  | cons a t ih =>
    cases t with
    | nil => exact List.mem_singleton.mpr rfl
    | cons b t2 =>
      rw [minC_cons_cons]
      rcases min_choice a (minC (b :: t2)) with h1 | h1 <;> rw [h1]
      · exact List.mem_cons_self _ _
      · exact List.mem_cons_of_mem _ (ih (by simp))

theorem le_maxC_of_mem {l : List ℕ} {c : ℕ} (h : c ∈ l) : c ≤ maxC l := by
  induction l with
  | nil => cases h
  | cons a t ih =>
    rcases List.mem_cons.mp h with rfl | h2
    · exact le_max_left _ _
    · exact le_trans (ih h2) (le_max_right _ _)

theorem minC_le_maxC {l : List ℕ} (h : l ≠ []) : minC l ≤ maxC l :=
  le_trans (minC_le_of_mem (minC_mem h)) (le_maxC_of_mem (minC_mem h))

theorem minC_eq_of_all_eq {l : List ℕ} {c : ℕ} (hne : l ≠ [])
    (h : ∀ k ∈ l, k = c) : minC l = c :=
  h _ (minC_mem hne)

theorem maxC_eq_of_all_eq {l : List ℕ} {c : ℕ} (hne : l ≠ [])
    (h : ∀ k ∈ l, k = c) : maxC l = c := by
  cases l with
  | nil => exact absurd rfl hne
  | cons a t =>
    have ha : a = c := h _ (List.mem_cons_self _ _)
    refine le_antisymm ?_ ?_
    · show max a (maxC t) ≤ c
      refine max_le (le_of_eq ha) ?_
      cases t with
      | nil => simp [maxC, ha, Nat.le_of_eq ha]
      | cons b t2 =>
        exact le_of_eq (maxC_eq_of_all_eq (by simp)
          (fun k hk => h k (List.mem_cons_of_mem _ hk)))
    · exact ha ▸ le_maxC_of_mem (List.mem_cons_self _ _)

theorem one_le_minC {l : List ℕ} (hne : l ≠ []) (h : ∀ k ∈ l, 1 ≤ k) :
    1 ≤ minC l :=
  h _ (minC_mem hne)

theorem sortedUnique_nodup (l : List ℕ) : (sortedUnique l).Nodup :=
  ((List.perm_insertionSort _ _).nodup_iff).mpr l.nodup_dedup

theorem mem_sortedUnique {l : List ℕ} {a : ℕ} :
    a ∈ sortedUnique l ↔ a ∈ l := by
  rw [sortedUnique, (List.perm_insertionSort _ _).mem_iff, List.mem_dedup]

theorem sortedUnique_toFinset (l : List ℕ) :
    (sortedUnique l).toFinset = l.toFinset := by
  ext a
  rw [List.mem_toFinset, List.mem_toFinset, mem_sortedUnique]

theorem sortedUnique_perm_eq {l l2 : List ℕ} (h : l.Perm l2) :
    sortedUnique l = sortedUnique l2 := by
  refine List.eq_of_perm_of_sorted ?_
    (List.sorted_insertionSort _ _) (List.sorted_insertionSort _ _)
  exact ((List.perm_insertionSort _ _).trans h.dedup).trans
    (List.perm_insertionSort _ _).symm

theorem sum_map_sortedUnique (L : List ℕ) (g : ℕ → ℕ) :
    ((sortedUnique L).map g).sum = ∑ a in L.toFinset, g a := by
  rw [← sortedUnique_toFinset L, List.sum_toFinset _ (sortedUnique_nodup L)]

theorem filter_length_eq_count (l : List RequestRecord) (s : ℕ) :
    (l.filter (fun r => r.SueId == s)).length
      = (l.map RequestRecord.SueId).count s := by
  rw [List.count_eq_countP, List.countP_map, List.countP_eq_length_filter]
  rfl

theorem sum_sue_counts (l : List RequestRecord) :
    (sue_counts l).sum = l.length := by
  rw [sue_counts, sum_map_sortedUnique]
  have h2 : ∑ s in (l.map RequestRecord.SueId).toFinset,
        (l.filter (fun r => r.SueId == s)).length
      = ∑ s in (l.map RequestRecord.SueId).toFinset,
          (l.map RequestRecord.SueId).count s :=
    Finset.sum_congr rfl (fun s _ => filter_length_eq_count l s)
  rw [h2, List.sum_toFinset_count_eq_length, List.length_map]

theorem one_le_of_mem_sue_counts {l : List RequestRecord} {c : ℕ}
    (h : c ∈ sue_counts l) : 1 ≤ c := by
  rw [sue_counts] at h
  rcases List.mem_map.mp h with ⟨s, hs, rfl⟩
  have hs2 : s ∈ l.map RequestRecord.SueId := mem_sortedUnique.mp hs
  rcases List.mem_map.mp hs2 with ⟨r, hr, hrs⟩
  have hmem : r ∈ l.filter (fun r => r.SueId == s) := by
    simp [List.mem_filter, hr, hrs]
  exact List.length_pos.mpr (List.ne_nil_of_mem hmem)

theorem sue_counts_ne_nil {l : List RequestRecord} (h : l ≠ []) :
    sue_counts l ≠ [] := by
  cases l with
  | nil => exact absurd rfl h
  | cons r t =>
    rw [sue_counts]
    intro hmap
    have hsort : sortedUnique ((r :: t).map RequestRecord.SueId) = [] :=
      List.map_eq_nil_iff.mp hmap
    have hmem : r.SueId ∈ sortedUnique ((r :: t).map RequestRecord.SueId) := by
      rw [mem_sortedUnique]
      simp
    rw [hsort] at hmem
    cases hmem

theorem xpu_data_ne_nil {df : List RequestRecord} {x : ℕ}
    (h : x ∈ df.map RequestRecord.LocalXpuId) : xpu_data df x ≠ [] := by
  rcases List.mem_map.mp h with ⟨r, hr, hrx⟩
  have hmem : r ∈ xpu_data df x := by
    simp [xpu_data, List.mem_filter, hr, hrx]
  exact List.ne_nil_of_mem hmem

theorem mem_local_xpus_iff {df : List RequestRecord} {x : ℕ} :
    x ∈ local_xpus df ↔ x ∈ df.map RequestRecord.LocalXpuId := by
  rw [local_xpus, mem_sortedUnique]

theorem mean_nonneg (l : List ℕ) : 0 ≤ mean l :=
  div_nonneg (by exact_mod_cast Nat.zero_le _) (by exact_mod_cast Nat.zero_le _)

theorem std_nonneg (l : List ℕ) : 0 ≤ std l :=
  Real.sqrt_nonneg _

theorem length_le_sum {l : List ℕ} (h : ∀ c ∈ l, 1 ≤ c) :
    l.length ≤ l.sum := by
  induction l with
  | nil => simp
  | cons a t ih =>
    simp only [List.length_cons, List.sum_cons]
    have ha := h a (List.mem_cons_self _ _)
    have ht := ih (fun c hc => h c (List.mem_cons_of_mem _ hc))
    omega

theorem mean_pos {l : List ℕ} (hne : l ≠ []) (h : ∀ c ∈ l, 1 ≤ c) :
    0 < mean l := by
  have hl : 0 < l.length := List.length_pos.mpr hne
  have hs : 0 < l.sum := lt_of_lt_of_le hl (length_le_sum h)
  exact div_pos (by exact_mod_cast hs) (by exact_mod_cast hl)

theorem mean_eq_of_all_eq {l : List ℕ} {c : ℕ} (hne : l ≠ [])
    (h : ∀ k ∈ l, k = c) : mean l = c := by
  have hl : (0 : ℝ) < l.length := by
    exact_mod_cast List.length_pos.mpr hne
  have hsum : l.sum = l.length * c := by
    rw [List.sum_eq_card_nsmul _ _ h, smul_eq_mul]
  rw [mean, hsum]
  push_cast
  field_simp

theorem std_eq_zero_of_all_eq {l : List ℕ} {c : ℕ} (hne : l ≠ [])
    (h : ∀ k ∈ l, k = c) : std l = 0 := by
  have hm := mean_eq_of_all_eq hne h
  have hz : ((l.map fun k : ℕ => ((k : ℝ) - mean l) ^ 2)).sum = 0 := by
    apply List.sum_eq_zero
    intro x hx
    rcases List.mem_map.mp hx with ⟨k, hk, rfl⟩
    rw [h k hk, hm]
    ring
  rw [std, hz, zero_div, Real.sqrt_zero]

theorem metricsFor_total_requests (df : List RequestRecord) (x : ℕ) :
    (metricsFor df x).total_requests = (xpu_data df x).length := rfl

theorem metricsFor_num_sues (df : List RequestRecord) (x : ℕ) :
    (metricsFor df x).num_sues = (actual_counts df x).length := rfl

theorem metricsFor_ideal (df : List RequestRecord) (x : ℕ) :
    (metricsFor df x).ideal_per_sue = ideal_per_sue df x := rfl

theorem metricsFor_cv_def (df : List RequestRecord) (x : ℕ) :
    (metricsFor df x).cv =
      if 0 < mean (actual_counts df x) then
        std (actual_counts df x) / mean (actual_counts df x)
      else 0 := rfl

theorem metricsFor_ratio_def (df : List RequestRecord) (x : ℕ) :
    (metricsFor df x).max_min_ratio =
      if 0 < minC (actual_counts df x) then
        some ((maxC (actual_counts df x) : ℝ) / (minC (actual_counts df x) : ℝ))
      else none := rfl

theorem metricsFor_rsd_def (df : List RequestRecord) (x : ℕ) :
    (metricsFor df x).rsd =
      if 0 < ideal_per_sue df x then
        std (actual_counts df x) / ideal_per_sue df x * 100
      else 0 := rfl

theorem metricsFor_sue_counts (df : List RequestRecord) (x : ℕ) :
    (metricsFor df x).sue_counts = actual_counts df x := rfl

theorem ne_nil_of_minC_pos {l : List ℕ} (h : 0 < minC l) : l ≠ [] := by
  intro he
  rw [he] at h
  exact absurd h (by simp [minC])

theorem ideal_eq_mean (df : List RequestRecord) (x : ℕ)
    (hne : actual_counts df x ≠ []) :
    ideal_per_sue df x = mean (actual_counts df x) := by
  rw [ideal_per_sue, if_pos (List.length_pos.mpr hne), mean,
    ← sum_sue_counts (xpu_data df x)]
  rfl

theorem metricsFor_cv_nonneg (df : List RequestRecord) (x : ℕ) :
    0 ≤ (metricsFor df x).cv := by
  rw [metricsFor_cv_def]
  by_cases hm : 0 < mean (actual_counts df x)
  · rw [if_pos hm]
    exact div_nonneg (std_nonneg _) hm.le
  · rw [if_neg hm]

theorem metricsFor_rsd_nonneg (df : List RequestRecord) (x : ℕ) :
    0 ≤ (metricsFor df x).rsd := by
  rw [metricsFor_rsd_def]
  by_cases hm : 0 < ideal_per_sue df x
  · rw [if_pos hm]
    exact mul_nonneg (div_nonneg (std_nonneg _) hm.le) (by norm_num)
  · rw [if_neg hm]

theorem one_le_of_mem_ratio (df : List RequestRecord) (x : ℕ) :
    ∀ r ∈ (metricsFor df x).max_min_ratio, 1 ≤ r := by
  intro r hr
  rw [metricsFor_ratio_def] at hr
  by_cases hmin : 0 < minC (actual_counts df x)
  · rw [if_pos hmin] at hr
    have hrr : (maxC (actual_counts df x) : ℝ) /
        (minC (actual_counts df x) : ℝ) = r := by
      simpa using hr
    rw [← hrr, le_div_iff₀ (by exact_mod_cast hmin), one_mul]
    exact_mod_cast minC_le_maxC (ne_nil_of_minC_pos hmin)
  · rw [if_neg hmin] at hr
    simp at hr

theorem cv_score_bounds {m : Metrics} (h : 0 ≤ m.cv) :
    0 ≤ cv_score m ∧ cv_score m ≤ 100 := by
  refine ⟨le_max_left _ _, max_le (by norm_num) (by nlinarith)⟩

theorem rsd_score_bounds {m : Metrics} (h : 0 ≤ m.rsd) :
    0 ≤ rsd_score m ∧ rsd_score m ≤ 100 := by
  refine ⟨le_max_left _ _, max_le (by norm_num) (by nlinarith)⟩

theorem ratio_score_bounds {m : Metrics}
    (h : ∀ r ∈ m.max_min_ratio, 1 ≤ r) :
    0 ≤ ratio_score m ∧ ratio_score m ≤ 100 := by
  cases hmr : m.max_min_ratio with
  | none => simp [ratio_score, hmr]
  | some r =>
    have hr : 1 ≤ r := h r (by simp [hmr])
    constructor
    · simp only [ratio_score, hmr]
      exact le_max_left _ _
    · simp only [ratio_score, hmr]
      exact max_le (by norm_num) (by nlinarith)

/-- Claim C1: the composite fairness score (average of cv_score, rsd_score
and ratio_score, each thresholded below at 0 and never exceeding 100)
always lies in [0, 100], for every input table and local id, however
unfair the distribution is. -/
theorem C1_composite_score_in_range (df : List RequestRecord) (x : ℕ) :
    0 ≤ overall_score (metricsFor df x) ∧
    overall_score (metricsFor df x) ≤ 100 := by
  obtain ⟨ha1, ha2⟩ := cv_score_bounds (metricsFor_cv_nonneg df x)
  obtain ⟨hb1, hb2⟩ := rsd_score_bounds (metricsFor_rsd_nonneg df x)
  obtain ⟨hc1, hc2⟩ := ratio_score_bounds (one_le_of_mem_ratio df x)
  constructor
  · rw [overall_score]
    exact div_nonneg (by linarith) (by norm_num)
  · rw [overall_score, div_le_iff₀ (by norm_num)]
    linarith

/-- Claim C2: for every input table and local id, the per-target counts of
the computed metrics record sum to the total_requests of that record. -/
theorem C2_conservation (df : List RequestRecord) (x : ℕ) :
    ((metricsFor df x).sue_counts).sum = (metricsFor df x).total_requests := by
  rw [metricsFor_sue_counts, metricsFor_total_requests]
  exact sum_sue_counts _

/-- Modelled from the spec: coefficient_of_variation =
population_std_dev(counts) / mean(counts), defined as 0 if mean is 0. -/
noncomputable def spec_coefficient_of_variation (counts : List ℕ) : ℝ :=
  if mean counts = 0 then 0 else std counts / mean counts

/-- Claim C3: the computed coefficient of variation equals the population
standard deviation of the per-target counts divided by their mean, and is
0 when the mean is 0. -/
theorem C3_cv_matches_spec (df : List RequestRecord) (x : ℕ) :
    (metricsFor df x).cv
      = spec_coefficient_of_variation ((metricsFor df x).sue_counts) := by
  rw [metricsFor_cv_def, metricsFor_sue_counts, spec_coefficient_of_variation]
  rcases eq_or_lt_of_le (mean_nonneg (actual_counts df x)) with he | hl
  · rw [if_neg (by rw [← he]; exact lt_irrefl 0), if_pos he.symm]
  · rw [if_pos hl, if_neg (ne_of_gt hl)]

/-- Claim C4: max_min_ratio is max(counts)/min(counts) when min(counts) is
positive, is the float infinity (modelled by none) when min(counts) = 0,
and every finite value it takes is at least 1. -/
theorem C4_max_min_ratio (df : List RequestRecord) (x : ℕ) :
    (0 < minC (actual_counts df x) →
      (metricsFor df x).max_min_ratio =
        some ((maxC (actual_counts df x) : ℝ) /
          (minC (actual_counts df x) : ℝ))) ∧
    (minC (actual_counts df x) = 0 →
      (metricsFor df x).max_min_ratio = none) ∧
    (∀ r ∈ (metricsFor df x).max_min_ratio, 1 ≤ r) := by
  refine ⟨fun h => ?_, fun h => ?_, one_le_of_mem_ratio df x⟩
  · rw [metricsFor_ratio_def, if_pos h]
  · rw [metricsFor_ratio_def, if_neg (by omega)]

/-- A concrete table: local XPU 1 sends two requests to SUE 0 and two to
SUE 1. -/
def wdfA : List RequestRecord :=
  [⟨1, 0, 0, 0⟩, ⟨1, 0, 0, 0⟩, ⟨1, 0, 0, 1⟩, ⟨1, 0, 0, 1⟩]

/-- Witness for C4 at the concrete table wdfA. -/
theorem C4_max_min_ratio_witness :
    0 < minC (actual_counts wdfA 1) ∧
    (metricsFor wdfA 1).max_min_ratio =
      some ((maxC (actual_counts wdfA 1) : ℝ) /
        (minC (actual_counts wdfA 1) : ℝ)) :=
  ⟨by decide, (C4_max_min_ratio wdfA 1).1 (by decide)⟩

theorem ratio_score_of_some {m : Metrics} {r : ℝ}
    (h : m.max_min_ratio = some r) :
    ratio_score m = max 0 (100 - (r - 1) * 50) := by
  simp [ratio_score, h]

/-- Claim C5: for a group present in the table whose per-target counts are
all equal to the same positive value (a single target included), the
metrics are cv = 0, rsd = 0, max_min_ratio = 1 and composite score 100. -/
theorem C5_perfect_fairness (df : List RequestRecord) (x c : ℕ)
    (hx : x ∈ df.map RequestRecord.LocalXpuId) (hc : 0 < c)
    (hall : ∀ k ∈ actual_counts df x, k = c) :
    (metricsFor df x).cv = 0 ∧ (metricsFor df x).rsd = 0 ∧
    (metricsFor df x).max_min_ratio = some 1 ∧
    overall_score (metricsFor df x) = 100 := by
  have hne : actual_counts df x ≠ [] := sue_counts_ne_nil (xpu_data_ne_nil hx)
  have hmean : mean (actual_counts df x) = c := mean_eq_of_all_eq hne hall
  have hcR : (0 : ℝ) < c := by exact_mod_cast hc
  have hmpos : 0 < mean (actual_counts df x) := by rw [hmean]; exact hcR
  have hstd : std (actual_counts df x) = 0 := std_eq_zero_of_all_eq hne hall
  have hideal : ideal_per_sue df x = mean (actual_counts df x) :=
    ideal_eq_mean df x hne
  have hcv : (metricsFor df x).cv = 0 := by
    rw [metricsFor_cv_def, if_pos hmpos, hstd, zero_div]
  have hrsd : (metricsFor df x).rsd = 0 := by
    rw [metricsFor_rsd_def, if_pos (by rw [hideal]; exact hmpos), hstd,
      zero_div, zero_mul]
  have hminc : minC (actual_counts df x) = c := minC_eq_of_all_eq hne hall
  have hmaxc : maxC (actual_counts df x) = c := maxC_eq_of_all_eq hne hall
  have hratio : (metricsFor df x).max_min_ratio = some 1 := by
    rw [metricsFor_ratio_def, if_pos (by rw [hminc]; exact hc)]
    congr 1
    rw [hminc, hmaxc, div_self (ne_of_gt hcR)]
  refine ⟨hcv, hrsd, hratio, ?_⟩
  rw [overall_score, cv_score, rsd_score, hcv, hrsd,
    ratio_score_of_some hratio]
  norm_num

/-- Witness for C5 at wdfA, where both targets receive exactly 2 requests. -/
theorem C5_perfect_fairness_witness :
    ((1 : ℕ) ∈ wdfA.map RequestRecord.LocalXpuId) ∧
    overall_score (metricsFor wdfA 1) = 100 :=
  ⟨by decide,
    (C5_perfect_fairness wdfA 1 2 (by decide) (by decide) (by decide)).2.2.2⟩

/-- Claim C9 (implicit): for a group with total_requests > 0, the mean of
the per-target counts coincides with ideal_per_sue, hence rsd is exactly
100 times cv. -/
theorem C9_rsd_is_100_cv (df : List RequestRecord) (x : ℕ)
    (h : 0 < (metricsFor df x).total_requests) :
    ideal_per_sue df x = mean (actual_counts df x) ∧
    (metricsFor df x).rsd = 100 * (metricsFor df x).cv := by
  rw [metricsFor_total_requests] at h
  have hne1 : xpu_data df x ≠ [] := List.length_pos.mp h
  have hne : actual_counts df x ≠ [] := sue_counts_ne_nil hne1
  have hone : ∀ k ∈ actual_counts df x, 1 ≤ k :=
    fun k hk => one_le_of_mem_sue_counts hk
  have hmpos : 0 < mean (actual_counts df x) := mean_pos hne hone
  have hideal : ideal_per_sue df x = mean (actual_counts df x) :=
    ideal_eq_mean df x hne
  refine ⟨hideal, ?_⟩
  rw [metricsFor_rsd_def, metricsFor_cv_def,
    if_pos (by rw [hideal]; exact hmpos), if_pos hmpos, hideal]
  ring

/-- Witness for C9 at wdfA. -/
theorem C9_rsd_is_100_cv_witness :
    0 < (metricsFor wdfA 1).total_requests ∧
    (metricsFor wdfA 1).rsd = 100 * (metricsFor wdfA 1).cv :=
  ⟨by decide, (C9_rsd_is_100_cv wdfA 1 (by decide)).2⟩

/-- Claim C10 (implicit): for every local id present in the table, the
group is non-empty, every per-target count is at least 1, the mean and the
minimum of the counts and num_sues and ideal_per_sue are positive, every
guarded division takes its non-degenerate branch, and max_min_ratio is a
finite value (isSome), not the infinity fallback. -/
theorem C10_all_metrics_finite (df : List RequestRecord) (x : ℕ)
    (h : x ∈ df.map RequestRecord.LocalXpuId) :
    xpu_data df x ≠ [] ∧
    (∀ c ∈ actual_counts df x, 1 ≤ c) ∧
    0 < mean (actual_counts df x) ∧
    0 < minC (actual_counts df x) ∧
    0 < (metricsFor df x).num_sues ∧
    0 < ideal_per_sue df x ∧
    (metricsFor df x).cv
      = std (actual_counts df x) / mean (actual_counts df x) ∧
    (metricsFor df x).rsd
      = std (actual_counts df x) / ideal_per_sue df x * 100 ∧
    (metricsFor df x).max_min_ratio
      = some ((maxC (actual_counts df x) : ℝ) /
        (minC (actual_counts df x) : ℝ)) ∧
    ((metricsFor df x).max_min_ratio).isSome = true := by
  have hne1 := xpu_data_ne_nil h
  have hne : actual_counts df x ≠ [] := sue_counts_ne_nil hne1
  have hone : ∀ c ∈ actual_counts df x, 1 ≤ c :=
    fun c hc => one_le_of_mem_sue_counts hc
  have hmpos := mean_pos hne hone
  have hminpos : 0 < minC (actual_counts df x) := one_le_minC hne hone
  have hnum : 0 < (metricsFor df x).num_sues := by
    rw [metricsFor_num_sues]
    exact List.length_pos.mpr hne
  have hideal : 0 < ideal_per_sue df x := by
    rw [ideal_eq_mean df x hne]
    exact hmpos
  refine ⟨hne1, hone, hmpos, hminpos, hnum, hideal, ?_, ?_, ?_, ?_⟩
  · rw [metricsFor_cv_def, if_pos hmpos]
  · rw [metricsFor_rsd_def, if_pos hideal]
  · rw [metricsFor_ratio_def, if_pos hminpos]
  · rw [metricsFor_ratio_def, if_pos hminpos]
    rfl

/-- Witness for C10 at wdfA. -/
theorem C10_all_metrics_finite_witness :
    ((1 : ℕ) ∈ wdfA.map RequestRecord.LocalXpuId) ∧
    ((metricsFor wdfA 1).max_min_ratio).isSome = true :=
  ⟨by decide,
    (C10_all_metrics_finite wdfA 1 (by decide)).2.2.2.2.2.2.2.2.2⟩

theorem toFinset_perm_eq {l l2 : List ℕ} (h : l.Perm l2) :
    l.toFinset = l2.toFinset := by
  ext a
  rw [List.mem_toFinset, List.mem_toFinset, h.mem_iff]

theorem sue_counts_perm_eq {l l2 : List RequestRecord} (h : l.Perm l2) :
    sue_counts l = sue_counts l2 := by
  rw [sue_counts, sue_counts, sortedUnique_perm_eq (h.map _)]
  apply List.map_congr_left
  intro s _
  exact (h.filter _).length_eq

theorem metricsFor_perm_eq {df df2 : List RequestRecord}
    (h : df.Perm df2) (x : ℕ) :
    metricsFor df x = metricsFor df2 x := by
  have h2 : actual_counts df x = actual_counts df2 x :=
    sue_counts_perm_eq (h.filter _)
  have h3 : (xpu_data df x).length = (xpu_data df2 x).length :=
    (h.filter _).length_eq
  have h4 : ideal_per_sue df x = ideal_per_sue df2 x := by
    rw [ideal_per_sue, ideal_per_sue, h2, h3]
  rw [metricsFor, metricsFor, h2, h3, h4]

/-- Claim C6: the metrics calculator produces one record per distinct
local id (its keys are exactly the distinct LocalXpuId values of the
input), it is a pure function of the table, and its output is unchanged
under any permutation of the input rows. -/
theorem C6_keys_and_determinism (df df2 : List RequestRecord)
    (h : df.Perm df2) :
    (calculate_load_balance_metrics df).map Prod.fst = local_xpus df ∧
    ((calculate_load_balance_metrics df).map Prod.fst).toFinset
      = (df.map RequestRecord.LocalXpuId).toFinset ∧
    calculate_load_balance_metrics df = calculate_load_balance_metrics df2 := by
  have hkeys : (calculate_load_balance_metrics df).map Prod.fst
      = local_xpus df := by
    rw [calculate_load_balance_metrics, List.map_map]
    have hcomp : (Prod.fst ∘ fun x => (x, metricsFor df x)) = id := rfl
    rw [hcomp, List.map_id]
  refine ⟨hkeys, ?_, ?_⟩
  · rw [hkeys, local_xpus, sortedUnique_toFinset]
  · rw [calculate_load_balance_metrics, calculate_load_balance_metrics]
    have hx : local_xpus df = local_xpus df2 := by
      rw [local_xpus, local_xpus, sortedUnique_perm_eq (h.map _)]
    rw [hx]
    apply List.map_congr_left
    intro x _
    rw [metricsFor_perm_eq h]

/-- A second concrete table, two rows for two distinct local XPUs. -/
def wdfB : List RequestRecord := [⟨1, 0, 0, 0⟩, ⟨2, 1, 1, 1⟩]

/-- The rows of wdfB in the opposite order. -/
def wdfC : List RequestRecord := [⟨2, 1, 1, 1⟩, ⟨1, 0, 0, 0⟩]

/-- Witness for C6 at the permuted pair wdfB, wdfC. -/
theorem C6_keys_and_determinism_witness :
    wdfB.Perm wdfC ∧
    calculate_load_balance_metrics wdfB = calculate_load_balance_metrics wdfC :=
  ⟨by decide, (C6_keys_and_determinism wdfB wdfC (by decide)).2.2⟩

/-- Claim C7: when sent exceeds received and the parsed dropped counter is
0, the dropped count is replaced by the sent/received difference before
any loss rate is computed (the rates of the returned record are computed
from the adjusted value); in every other case the parsed dropped count is
kept unchanged. -/
theorem C7_dropped_fallback (s r d : ℕ) :
    (r < s → d = 0 → total_dropped_adjusted s r d = s - r) ∧
    (¬(r < s ∧ d = 0) → total_dropped_adjusted s r d = d) ∧
    (∀ res, calculate_packet_loss s r d = Except.ok res →
      res.total_dropped = total_dropped_adjusted s r d ∧
      res.receiver_loss_rate =
        (if r = 0 then 0 else (total_dropped_adjusted s r d : ℚ) / r * 100) ∧
      res.total_loss_rate =
        ((s : ℚ) - ((r : ℚ) - (total_dropped_adjusted s r d : ℚ)))
          / s * 100) := by
  refine ⟨fun h1 h2 => ?_, fun h => ?_, fun res hres => ?_⟩
  · rw [total_dropped_adjusted, if_pos ⟨h1, h2⟩]
  · rw [total_dropped_adjusted, if_neg h]
  · rw [calculate_packet_loss] at hres
    by_cases hs : s = 0
    · rw [if_pos hs] at hres
      cases hres
    · rw [if_neg hs] at hres
      obtain rfl := Except.ok.inj hres
      exact ⟨rfl, rfl, rfl⟩

/-- Witness for C7 with 10 packets sent, 7 received, 0 reported dropped:
the fallback infers 3 dropped packets. -/
theorem C7_dropped_fallback_witness :
    (7 : ℕ) < 10 ∧ total_dropped_adjusted 10 7 0 = 10 - 7 :=
  ⟨by decide, (C7_dropped_fallback 10 7 0).1 (by decide) rfl⟩

/-- The failure pattern in which only the box plot raises an exception. -/
def failsOnlyBoxPlot : Chart → Bool := fun c => c == Chart.boxPlot

/-- Claim C8 counterexample: when only the box plot fails, the heatmap
renders without error yet is never generated, because the three chart
calls share a single try/except; the analysis report is still written. -/
theorem C8_counterexample :
    failsOnlyBoxPlot Chart.heatmap = false ∧
    reportGenerated failsOnlyBoxPlot = true ∧
    Chart.heatmap ∉ chartsGenerated failsOnlyBoxPlot := by
  decide

/-- Claim C8 (amended): a chart rendering failure is caught by the single
try/except around the whole chart phase and the analysis report is always
generated, but a chart is generated exactly when it and every chart
invoked before it render successfully: charts after the first failure are
skipped. -/
theorem C8_single_try_block (fails : Chart → Bool) :
    reportGenerated fails = true ∧
    (Chart.boxPlot ∈ chartsGenerated fails ↔ fails Chart.boxPlot = false) ∧
    (Chart.heatmap ∈ chartsGenerated fails ↔
      fails Chart.boxPlot = false ∧ fails Chart.heatmap = false) ∧
    (Chart.fairness ∈ chartsGenerated fails ↔
      fails Chart.boxPlot = false ∧ fails Chart.heatmap = false ∧
        fails Chart.fairness = false) := by
  refine ⟨rfl, ?_, ?_, ?_⟩ <;>
  · cases hb : fails Chart.boxPlot <;> cases hh : fails Chart.heatmap <;>
      cases hf : fails Chart.fairness <;>
      simp [chartsGenerated, chartSequence, hb, hh, hf]

/-- Witness for the amended C8 at the concrete failure pattern in which
only the box plot fails. -/
theorem C8_single_try_block_witness :
    reportGenerated failsOnlyBoxPlot = true ∧
    (Chart.boxPlot ∈ chartsGenerated failsOnlyBoxPlot ↔
      failsOnlyBoxPlot Chart.boxPlot = false) ∧
    (Chart.heatmap ∈ chartsGenerated failsOnlyBoxPlot ↔
      failsOnlyBoxPlot Chart.boxPlot = false ∧
        failsOnlyBoxPlot Chart.heatmap = false) ∧
    (Chart.fairness ∈ chartsGenerated failsOnlyBoxPlot ↔
      failsOnlyBoxPlot Chart.boxPlot = false ∧
        failsOnlyBoxPlot Chart.heatmap = false ∧
          failsOnlyBoxPlot Chart.fairness = false) :=
  C8_single_try_block failsOnlyBoxPlot
